import Mathlib

/-!
Verification of the reply-automation core: a shallow embedding of
`src/twitter_client.py` (error classification, retry loops, shared rate-limit
cooldown, tweet-id extraction), `src/agent.py` (session orchestration and
per-item processing) and the background-runner boundary of `main.py`.

Modelling conventions:
- machine time is `Nat` (seconds); `time.sleep(d)` advances it by exactly `d`.
  Under integer time, Python's `int(remaining)` truncation is exact.
- external collaborators (Tweepy, the SQLite store, the LLM) are oracles:
  their per-call results are inputs to the embedded functions.
- every remote attempt (`create_tweet` / `get_tweet`) is recorded in a trace
  as the pair (current time, current value of `rate_limited_until`).
-/

/-- Characters stripped by Python's `str.strip()`. -/
def isPySpace (c : Char) : Bool :=
  c = ' ' || c = '\t' || c = '\n' || c = '\r' || c = '\x0b' || c = '\x0c'

/-- Python `str.strip()`: drop leading and trailing whitespace. -/
def pyStrip (l : List Char) : List Char :=
  ((l.dropWhile isPySpace).reverse.dropWhile isPySpace).reverse

/-- If `p` is an initial run of `l`, return the remainder of `l`, else `none`. -/
def stripLead : List Char → List Char → Option (List Char)
  | [], l => some l
  | _ :: _, [] => none
  | a :: p, b :: l => if a = b then stripLead p l else none

/-- Python's `needle in hay` substring test. -/
def subOcc (hay needle : List Char) : Bool :=
  match hay with
  | [] => needle.isEmpty
  | _ :: rest => (stripLead needle hay).isSome || subOcc rest needle

/-! ## Tweet-id extraction (`TwitterClient.extract_tweet_id`)

The Python code applies `re.search` with the pattern
`(?:twitter|x)\.com/[^/]+/status/(\d+)` and returns `match.group(1)`.
At a given start position the pattern is deterministic: after the host
literal, the `[^/]+` segment necessarily extends to the first `/`, which must
begin the literal `/status/` followed by at least one digit; the captured
group is the maximal digit run.  `re.search` tries start positions left to
right. -/

/-- The characters of the literal `"twitter.com/"`. -/
def twitterHost : List Char :=
  ['t', 'w', 'i', 't', 't', 'e', 'r', '.', 'c', 'o', 'm', '/']

/-- The characters of the literal `"x.com/"`. -/
def xHost : List Char := ['x', '.', 'c', 'o', 'm', '/']

/-- The characters of the literal `"/status/"`. -/
def statusLit : List Char := ['/', 's', 't', 'a', 't', 'u', 's', '/']

/-- Match `/status/` followed by at least one digit; return the digit run. -/
def checkStat (l : List Char) : Option (List Char) :=
  match stripLead statusLit l with
  | none => none
  | some tail =>
    match tail.takeWhile Char.isDigit with
    | [] => none
    | ds => some ds

/-- Scan past the `[^/]+` segment (chars already seen are non-slash): at the
first `/`, the `/status/<digits>` literal must start. -/
def restScan : List Char → Option (List Char)
  | [] => none
  | c :: rest => if c = '/' then checkStat (c :: rest) else restScan rest

/-- After the host literal: `[^/]+/status/(\d+)` — the first char must not be
`/`, then scan to the first `/`. -/
def afterHostScan : List Char → Option (List Char)
  | [] => none
  | c :: rest => if c = '/' then none else restScan rest

/-- Try the whole pattern at this position (alternation tries `twitter` then
`x`; their first characters differ, so at most one host literal applies). -/
def matchHere (l : List Char) : Option (List Char) :=
  match stripLead twitterHost l with
  | some rest => afterHostScan rest
  | none =>
    match stripLead xHost l with
    | some rest => afterHostScan rest
    | none => none

/-- `re.search`: try each start position left to right. -/
def scanFrom : List Char → Option (List Char)
  | [] => none
  | c :: rest =>
    match matchHere (c :: rest) with
    | some ds => some ds
    | none => scanFrom rest

/-- `TwitterClient.extract_tweet_id`: the digits of the first
`(?:twitter|x)\.com/[^/]+/status/(\d+)` match, or `None`. -/
def extract_tweet_id (url : String) : Option String :=
  (scanFrom url.toList).map fun ds => String.mk ds

/-- Spec-side reading of the pattern: the URL contains a `twitter.com/` or
`x.com/` host followed by a non-empty slash-free path segment, then
`/status/` and at least one digit. -/
def ContainsStatusLink (url : String) : Prop :=
  ∃ (pre host user : List Char) (d : Char) (post : List Char),
    url.toList = pre ++ (host ++ (user ++ (statusLit ++ d :: post))) ∧
    (host = twitterHost ∨ host = xHost) ∧
    user ≠ [] ∧ '/' ∉ user ∧ d.isDigit = true

/-! ## The delivery client (`src/twitter_client.py`)

`ClientState` carries the process clock and the shared
`rate_limited_until` cooldown.  `time.time()` reads `time`;
`time.sleep(d)` advances it by `d`. -/

/-- Error categories produced by `TwitterClient._classify_error`. -/
inductive ErrCategory
  | rate_limit | server_error | network | auth | forbidden | duplicate | unknown
deriving DecidableEq, Repr

/-- The classification dict `{retryable, category, message, wait_time, reconnect?}`;
a missing `reconnect` key reads as `False`. -/
structure ErrInfo where
  retryable : Bool
  category : ErrCategory
  message : String
  wait_time : Nat
  reconnect : Bool := false
deriving DecidableEq, Repr

/-- Python lowercasing of the error text (`str(error).lower()`). -/
def pyLower (l : List Char) : List Char := l.map Char.toLower

/-- `TwitterClient._classify_error`: substring heuristics over `str(error)`,
in source order. -/
def classify_error (error : String) : ErrInfo :=
  let raw := error.toList
  let error_str := pyLower raw
  if subOcc raw ("429").toList || subOcc error_str ("rate limit").toList
      || subOcc error_str ("too many").toList then
    { retryable := true, category := .rate_limit,
      message := "Rate limited by Twitter.", wait_time := 180 }
  else if subOcc raw ("500").toList || subOcc raw ("502").toList
      || subOcc raw ("503").toList || subOcc raw ("504").toList then
    { retryable := true, category := .server_error,
      message := "Twitter server error. Will auto-retry.", wait_time := 10 }
  else if subOcc error_str ("connection").toList || subOcc error_str ("timeout").toList
      || subOcc error_str ("network").toList || subOcc error_str ("reset").toList
      || subOcc error_str ("broken pipe").toList then
    { retryable := true, category := .network,
      message := "Network error. Will auto-retry.", wait_time := 5 }
  else if subOcc raw ("401").toList || subOcc error_str ("unauthorized").toList then
    { retryable := true, category := .auth,
      message := "Auth error (401). Attempting reconnect.", wait_time := 2,
      reconnect := true }
  else if subOcc raw ("403").toList || subOcc error_str ("forbidden").toList then
    { retryable := false, category := .forbidden,
      message := "Forbidden (403): " ++ String.mk (raw.take 150)
        ++ ". Check API permissions.", wait_time := 0 }
  else if subOcc error_str ("duplicate").toList || subOcc error_str ("already").toList then
    { retryable := false, category := .duplicate,
      message := "Duplicate tweet — already posted.", wait_time := 0 }
  else
    { retryable := true, category := .unknown,
      message := "Unknown error: " ++ String.mk (raw.take 200), wait_time := 5 }

/-- Clock plus the shared cooldown field `rate_limited_until` (0 = unset). -/
structure ClientState where
  time : Nat
  rate_limited_until : Nat
deriving DecidableEq, Repr

/-- `TwitterClient.is_rate_limited`: `time.time() < self.rate_limited_until`. -/
def is_rate_limited (s : ClientState) : Bool :=
  s.time < s.rate_limited_until

/-- `TwitterClient.get_rate_limit_remaining`:
`max(0, int(self.rate_limited_until - time.time()))`. -/
def get_rate_limit_remaining (s : ClientState) : Nat :=
  s.rate_limited_until - s.time

/-- Outcome of one `client.create_tweet` call: a response with data, a
response with `data is None`, or a raised exception with text `e`. -/
inductive AttemptOutcome
  | ok
  | emptyResponse
  | err (e : String)
deriving DecidableEq, Repr

/-- `self.MAX_RETRIES`, set to 3 in `TwitterClient.__init__`. -/
def MAX_RETRIES : Nat := 3

/-- Trace of remote attempts: for each call,
(time at the call, `rate_limited_until` at the call). -/
abbrev AttemptTrace := List (Nat × Nat)

/-- The `for attempt in range(max_retries)` loop of `post_reply`.
`fuel + 1` is the number of iterations still available, so
`attempt == max_retries - 1` exactly when `fuel = 0`. -/
def postLoop (env : Nat → AttemptOutcome) :
    Nat → Nat → Bool → String → ClientState →
    (Bool × String) × ClientState × AttemptTrace
  | 0, _, _, last_error_msg, s => ((false, last_error_msg), s, [])
  | fuel + 1, attempt, reconnected, _, s =>
    let entry := (s.time, s.rate_limited_until)
    match env attempt with
    | .ok =>
      -- response.data is not None: reset the cooldown and return success
      ((true, ""), { s with rate_limited_until := 0 }, [entry])
    | .emptyResponse =>
      -- set last_error_msg and fall through to the next loop iteration
      let r := postLoop env fuel (attempt + 1) reconnected ("API returned empty response") s
      (r.1, r.2.1, entry :: r.2.2)
    | .err e =>
      let info := classify_error e
      let reconnected' := reconnected || info.reconnect
      if info.category = .rate_limit then
        -- rate limit: set the shared cooldown to now + wait
        let s₁ := { s with rate_limited_until := s.time + info.wait_time }
        if fuel = 0 then
          -- attempt == max_retries - 1: break with the cooldown set
          ((false, info.message), s₁, [entry])
        else
          -- sleep out the wait, then continue
          let s₂ := { s₁ with time := s₁.time + info.wait_time }
          let r := postLoop env fuel (attempt + 1) reconnected' info.message s₂
          (r.1, r.2.1, entry :: r.2.2)
      else if !info.retryable || fuel = 0 then
        -- not retryable, or attempts exhausted: break
        ((false, info.message), s, [entry])
      else
        -- short backoff, then retry
        let s₂ := { s with time := s.time + info.wait_time }
        let r := postLoop env fuel (attempt + 1) reconnected' info.message s₂
        (r.1, r.2.1, entry :: r.2.2)

/-- `TwitterClient.post_reply` (the tweet id and text only feed the remote
call, which the oracle `env` models): wait out an active cooldown, then run
the bounded retry loop.  Returns the `(success, error_detail)` pair, the
final client state, and the trace of `create_tweet` calls. -/
def post_reply (env : Nat → AttemptOutcome) (s : ClientState) :
    (Bool × String) × ClientState × AttemptTrace :=
  let s₀ := if is_rate_limited s
            then { s with time := s.time + get_rate_limit_remaining s }
            else s
  postLoop env MAX_RETRIES 0 false ("") s₀

/-- Sequential `post_reply` calls threading the shared client state
(later work items reuse the same `TwitterClient`). -/
def post_reply_seq : List (Nat → AttemptOutcome) → ClientState → ClientState × AttemptTrace
  | [], s => (s, [])
  | env :: rest, s =>
    let r := post_reply env s
    let r' := post_reply_seq rest r.2.1
    (r'.1, r.2.2 ++ r'.2)

/-- Outcome of one `client.get_tweet` call: a response whose `data` is
truthy (with an optional `text` attribute), a falsy `data`, or an
exception. -/
inductive FetchOutcome
  | data (text : Option String)
  | noData
  | err (e : String)
deriving DecidableEq, Repr

/-- The retry loop of `TwitterClient.get_tweet`.  A falsy `response.data`
returns `None` immediately; exceptions are classified, reconnect is only a
client rebuild, and the shared cooldown is never read or written. -/
def getLoop (env : Nat → FetchOutcome) :
    Nat → Nat → ClientState → Option (Option String) × ClientState × AttemptTrace
  | 0, _, s => (none, s, [])
  | fuel + 1, attempt, s =>
    let entry := (s.time, s.rate_limited_until)
    match env attempt with
    | .data t => (some t, s, [entry])
    | .noData => (none, s, [entry])
    | .err e =>
      let info := classify_error e
      if !info.retryable || fuel = 0 then
        (none, s, [entry])
      else
        let s₂ := { s with time := s.time + info.wait_time }
        let r := getLoop env fuel (attempt + 1) s₂
        (r.1, r.2.1, entry :: r.2.2)

/-- `TwitterClient.get_tweet`: bounded retries, no cooldown interaction.
Returns the fetched `text` (`some t` models the returned dict), the final
state and the trace of fetch attempts. -/
def get_tweet (env : Nat → FetchOutcome) (s : ClientState) :
    Option (Option String) × ClientState × AttemptTrace :=
  getLoop env MAX_RETRIES 0 s

/-- The error detail `post_reply` keeps for an attempt's outcome
(`last_error_msg` in the source). -/
def attemptErrMsg (o : AttemptOutcome) : String :=
  match o with
  | .ok => ""
  | .emptyResponse => "API returned empty response"
  | .err e => (classify_error e).message

/-! ## The orchestrator (`src/agent.py`) and its boundary (`main.py`)

The durable store, the fetch client and the LLM are oracles bundled per work
item in `ItemEnv`.  Batch breaks and human delays only call `time.sleep` and
`random.randint`; they do not touch any state observed by the properties
below, so the agent embedding does not model the clock. -/

/-- One unit of work: `{'url': ..., 'content': ...}` (a missing `content`
key reads as `''`). -/
structure WorkItem where
  url : String
  content : String
deriving DecidableEq, Repr

/-- Result of `Agent._process_single_post`: its `status` field together with
the accompanying `reply` / `reason` / `error` value. -/
inductive ItemResult
  | success (reply : String)
  | skipped (reason : String)
  | failed (error : String)
deriving DecidableEq, Repr

/-- The collaborator calls `_process_single_post` can make, in order of
appearance: the `is_post_processed` store lookup, the `get_tweet` fetch, the
LLM generation, the `post_reply` delivery, and the three success-path writes
(`mark_post_processed`, `increment_daily_count`, `save_todays_reply`). -/
inductive AgentEvent
  | storeLookup
  | fetchTweet
  | generate
  | deliver
  | persistRecord
  | quotaIncrement
  | cacheAppend
deriving DecidableEq, Repr

/-- Oracle for one item's collaborator calls. -/
structure ItemEnv where
  /-- `db.is_post_processed(url)` -/
  alreadyProcessed : Bool
  /-- `twitter.get_tweet(id)`: `none` is `None`; `some t` is the returned
  dict, whose `'text'` entry is `t`. -/
  fetchResult : Option (Option String)
  /-- `llm.generate_unique_reply(...)`: `none` is `None`. -/
  llmReply : Option String
  /-- the `(success, error_detail)` pair returned by `twitter.post_reply`. -/
  postReplyResult : Bool × String
deriving DecidableEq, Repr

/-- Truthiness of the value `_process_single_post` binds from
`success = self.twitter.post_reply(tweet_id, reply_text)`: `post_reply`
returns a 2-tuple `(bool, str)`, and in Python a non-empty tuple is truthy
whatever its components, so `if success:` always takes the success branch. -/
def pyTruthyPair (_ : Bool × String) : Bool := true

/-- The tail of `_process_single_post` once `tweet_text` is resolved:
length validation, LLM generation, delivery, and the success-path writes. -/
def afterText (text : String) (env : ItemEnv) (ev : List AgentEvent) :
    ItemResult × List AgentEvent :=
  if (pyStrip text.toList).length < 5 then
    (.skipped ("content_too_short"), ev)
  else
    let ev₁ := ev ++ [.generate]
    match env.llmReply with
    | none => (.failed ("LLM generation failed"), ev₁)
    | some reply =>
      if reply = "" then (.failed ("LLM generation failed"), ev₁)
      else
        let ev₂ := ev₁ ++ [.deliver]
        let success := env.postReplyResult
        if pyTruthyPair success then
          (.success reply, ev₂ ++ [.persistRecord, .quotaIncrement, .cacheAppend])
        else
          (.failed ("Twitter API error"), ev₂)

/-- `Agent._process_single_post(url, provided_text)`: store lookup, tweet-id
extraction, text resolution (provided text over fetch), then `afterText`. -/
def process_single_post (url provided_text : String) (env : ItemEnv) :
    ItemResult × List AgentEvent :=
  let ev₀ : List AgentEvent := [.storeLookup]
  if env.alreadyProcessed then
    (.skipped ("already_processed"), ev₀)
  else
    match extract_tweet_id url with
    | none => (.failed ("Invalid URL"), ev₀)
    | some _ =>
      if provided_text ≠ "" ∧ (pyStrip provided_text.toList).length > 5 then
        afterText provided_text env ev₀
      else
        let ev₁ := ev₀ ++ [.fetchTweet]
        match env.fetchResult with
        | none => (.skipped ("cannot_read_tweet_text"), ev₁)
        | some t =>
          match t with
          | none => (.skipped ("cannot_read_tweet_text"), ev₁)
          | some text =>
            if text = "" then (.skipped ("cannot_read_tweet_text"), ev₁)
            else afterText text env ev₁

/-- The session report dict.  The quota-exhausted early return carries only
`status`, `message` and zero counts; the main-loop report carries the
counts, `errors` and `success_posts` and no `message`; absent keys are the
defaults here. -/
structure Report where
  status : String
  message : Option String := none
  total_replies : Nat := 0
  skipped : Nat := 0
  failed : Nat := 0
  errors : List String := []
  success_posts : List String := []
deriving DecidableEq, Repr

/-- A finished session: the report plus the collaborator-call trace and the
number of items actually handed to `_process_single_post`. -/
structure SessionOut where
  report : Report
  events : List AgentEvent
  visited : Nat
deriving DecidableEq, Repr

/-- Mutable loop state of `run_session`'s main loop. -/
structure LoopState where
  total_replies : Nat
  skipped : Nat
  failed : Nat
  errors : List String
  success_posts : List String
  processed : Nat
  batch_count : Nat
  events : List AgentEvent
  visited : Nat
deriving DecidableEq, Repr

/-- Falling out of the loop: `report["status"] = "completed"` is executed
unconditionally (agent.py line 120), on every loop exit. -/
def finishSession (st : LoopState) : SessionOut :=
  ⟨{ status := "completed", message := none,
     total_replies := st.total_replies, skipped := st.skipped,
     failed := st.failed, errors := st.errors,
     success_posts := st.success_posts }, st.events, st.visited⟩

/-- The `for i, item in enumerate(session_data)` loop.  `stopAt i` is the
value of `self.stop_requested` observed at iteration `i`; `env i` is item
`i`'s collaborator oracle, or `.error e` when a collaborator raises an
uncaught exception `e` (which `run_session` does not handle). -/
def sessionLoop (stopAt : Nat → Bool) (env : Nat → Except String ItemEnv)
    (actual_target : Nat) :
    List WorkItem → Nat → LoopState → Except String SessionOut
  | [], _, st => .ok (finishSession st)
  | item :: rest, i, st =>
    if stopAt i then .ok (finishSession st)
    else if actual_target ≤ st.processed then .ok (finishSession st)
    else
      match env i with
      | .error e => .error e
      | .ok ienv =>
        let r := process_single_post item.url item.content ienv
        let st' := { st with events := st.events ++ r.2, visited := st.visited + 1 }
        match r.1 with
        | .success _ =>
          sessionLoop stopAt env actual_target rest (i + 1)
            { st' with total_replies := st'.total_replies + 1,
                       success_posts := st'.success_posts ++ [item.url],
                       processed := st'.processed + 1,
                       batch_count := st'.batch_count + 1 }
        | .skipped _ =>
          sessionLoop stopAt env actual_target rest (i + 1)
            { st' with skipped := st'.skipped + 1 }
        | .failed err =>
          sessionLoop stopAt env actual_target rest (i + 1)
            { st' with failed := st'.failed + 1,
                       errors := st'.errors ++ [item.url ++ ": " ++ err] }

/-- `Agent.run_session`: daily-limit check, target adjustment, main loop.
`daily_limit` is `Config.DAILY_REPLY_LIMIT`, `today_count` is
`db.get_today_reply_count()`.  `remaining` is computed in `Int` as in
Python; in the main branch `today_count < daily_limit`, so the `Nat`
subtraction in `actual_target` agrees with Python's. -/
def run_session (daily_limit today_count : Nat) (session_data : List WorkItem)
    (target_count : Nat) (stopAt : Nat → Bool)
    (env : Nat → Except String ItemEnv) : Except String SessionOut :=
  let remaining : Int := (daily_limit : Int) - (today_count : Int)
  if remaining ≤ 0 then
    .ok ⟨{ status := "error",
           message := some ("Daily limit (" ++ toString daily_limit
             ++ ") already reached!"),
           total_replies := 0, skipped := 0, failed := 0 }, [], 0⟩
  else
    let actual_target := min target_count
      (min (daily_limit - today_count) session_data.length)
    sessionLoop stopAt env actual_target session_data 0
      ⟨0, 0, 0, [], [], 0, 0, [], 0⟩

/-- The `run_in_background` closure in `main.py`'s `/run` handler: it calls
`agent.run_session` under `try/except Exception`, storing the returned
report, or `{"status": "error", "message": str(e)}` when the call raises. -/
def run_in_background (daily_limit today_count : Nat)
    (session_data : List WorkItem) (target_count : Nat) (stopAt : Nat → Bool)
    (env : Nat → Except String ItemEnv) : Report :=
  match run_session daily_limit today_count session_data target_count stopAt env with
  | .ok out => out.report
  | .error e => { status := "error", message := some e }
/-! ### Scanner versus the spec-side decomposition -/

theorem stripLead_sound : ∀ p l r, stripLead p l = some r → l = p ++ r := by
  intro p
  induction p with
  | nil => intro l r h; simpa [stripLead] using h
  | cons a p ih =>
    intro l r h
    cases l with
    | nil => simp [stripLead] at h
    | cons b l =>
      by_cases hab : a = b
      · subst hab
        simp only [stripLead, if_pos rfl] at h
        simpa using ih l r h
      · simp [stripLead, hab] at h

theorem stripLead_self : ∀ p r, stripLead p (p ++ r) = some r := by
  intro p
  induction p with
  | nil => intro r; simp [stripLead]
  | cons a p ih => intro r; simp [stripLead, ih]

theorem restScan_cons (c : Char) (rest : List Char) :
    restScan (c :: rest) = if c = '/' then checkStat (c :: rest) else restScan rest := rfl

theorem afterHostScan_cons (c : Char) (rest : List Char) :
    afterHostScan (c :: rest) = if c = '/' then none else restScan rest := rfl

theorem scanFrom_cons (c : Char) (rest : List Char) :
    scanFrom (c :: rest) = match matchHere (c :: rest) with
      | some ds => some ds
      | none => scanFrom rest := rfl

theorem checkStat_sound (l ds : List Char) (h : checkStat l = some ds) :
    ∃ (d : Char) (post : List Char),
      l = statusLit ++ d :: post ∧ d.isDigit = true := by
  unfold checkStat at h
  split at h
  · simp at h
  · rename_i tail hs
    split at h
    · simp at h
    · rename_i d ds' htw
      have hl := stripLead_sound _ _ _ hs
      cases tail with
      | nil => simp [List.takeWhile] at htw
      | cons t ts =>
        have hd : t.isDigit = true := by
          by_cases hdt : t.isDigit = true
          · exact hdt
          · simp [List.takeWhile, hdt] at htw
        exact ⟨t, ts, hl, hd⟩

theorem restScan_sound : ∀ l ds, restScan l = some ds →
    ∃ (u : List Char) (d : Char) (post : List Char),
      l = u ++ (statusLit ++ d :: post) ∧ '/' ∉ u ∧ d.isDigit = true := by
  intro l
  induction l with
  | nil => intro ds h; simp [restScan] at h
  | cons c rest ih =>
    intro ds h
    by_cases hc : c = '/'
    · rw [restScan_cons, if_pos hc] at h
      obtain ⟨d, post, hdec, hd⟩ := checkStat_sound _ _ h
      exact ⟨[], d, post, by simpa using hdec, by simp, hd⟩
    · rw [restScan_cons, if_neg hc] at h
      obtain ⟨u, d, post, hdec, hu, hd⟩ := ih ds h
      refine ⟨c :: u, d, post, by simp [hdec], ?_, hd⟩
      intro hmem
      rcases List.mem_cons.mp hmem with h1 | h2
      · exact hc h1.symm
      · exact hu h2

theorem afterHostScan_sound (l ds : List Char) (h : afterHostScan l = some ds) :
    ∃ (u : List Char) (d : Char) (post : List Char),
      l = u ++ (statusLit ++ d :: post) ∧ u ≠ [] ∧ '/' ∉ u ∧ d.isDigit = true := by
  cases l with
  | nil => simp [afterHostScan] at h
  | cons c rest =>
    by_cases hc : c = '/'
    · rw [afterHostScan_cons, if_pos hc] at h; exact absurd h (by simp)
    · rw [afterHostScan_cons, if_neg hc] at h
      obtain ⟨u, d, post, hdec, hu, hd⟩ := restScan_sound _ _ h
      refine ⟨c :: u, d, post, by simp [hdec], by simp, ?_, hd⟩
      intro hmem
      rcases List.mem_cons.mp hmem with h1 | h2
      · exact hc h1.symm
      · exact hu h2

theorem matchHere_sound (l ds : List Char) (h : matchHere l = some ds) :
    ∃ (host u : List Char) (d : Char) (post : List Char),
      l = host ++ (u ++ (statusLit ++ d :: post)) ∧
      (host = twitterHost ∨ host = xHost) ∧
      u ≠ [] ∧ '/' ∉ u ∧ d.isDigit = true := by
  unfold matchHere at h
  split at h
  · rename_i rest htw
    have hl := stripLead_sound _ _ _ htw
    obtain ⟨u, d, post, hdec, hne, hu, hd⟩ := afterHostScan_sound _ _ h
    exact ⟨twitterHost, u, d, post, by rw [hl, hdec], Or.inl rfl, hne, hu, hd⟩
  · rename_i htw
    split at h
    · rename_i rest hx
      have hl := stripLead_sound _ _ _ hx
      obtain ⟨u, d, post, hdec, hne, hu, hd⟩ := afterHostScan_sound _ _ h
      exact ⟨xHost, u, d, post, by rw [hl, hdec], Or.inr rfl, hne, hu, hd⟩
    · simp at h

theorem scanFrom_sound : ∀ l ds, scanFrom l = some ds →
    ∃ (pre host u : List Char) (d : Char) (post : List Char),
      l = pre ++ (host ++ (u ++ (statusLit ++ d :: post))) ∧
      (host = twitterHost ∨ host = xHost) ∧
      u ≠ [] ∧ '/' ∉ u ∧ d.isDigit = true := by
  intro l
  induction l with
  | nil => intro ds h; simp [scanFrom] at h
  | cons c rest ih =>
    intro ds h
    rw [scanFrom_cons] at h
    cases hm : matchHere (c :: rest) with
    | some ds' =>
      obtain ⟨host, u, d, post, hdec, hh, hne, hu, hd⟩ := matchHere_sound _ _ hm
      exact ⟨[], host, u, d, post, by simpa using hdec, hh, hne, hu, hd⟩
    | none =>
      rw [hm] at h
      obtain ⟨pre, host, u, d, post, hdec, hh, hne, hu, hd⟩ := ih ds h
      exact ⟨c :: pre, host, u, d, post, by simp [hdec], hh, hne, hu, hd⟩

theorem extract_some_contains (url : String) (hs : extract_tweet_id url ≠ none) :
    ContainsStatusLink url := by
  unfold extract_tweet_id at hs
  cases hsc : scanFrom url.toList with
  | none => rw [hsc] at hs; simp at hs
  | some ds =>
    obtain ⟨pre, host, u, d, post, hdec, hh, hne, hu, hd⟩ := scanFrom_sound _ _ hsc
    exact ⟨pre, host, u, d, post, hdec, hh, hne, hu, hd⟩

theorem checkStat_complete (d : Char) (post : List Char) (hd : d.isDigit = true) :
    ∃ ds, checkStat (statusLit ++ d :: post) = some ds := by
  unfold checkStat
  rw [stripLead_self]
  simp only [List.takeWhile, hd]
  exact ⟨_, rfl⟩

theorem restScan_complete : ∀ (u : List Char) (d : Char) (post : List Char),
    '/' ∉ u → d.isDigit = true →
    ∃ ds, restScan (u ++ (statusLit ++ d :: post)) = some ds := by
  intro u
  induction u with
  | nil =>
    intro d post _ hd
    obtain ⟨ds, hds⟩ := checkStat_complete d post hd
    refine ⟨ds, ?_⟩
    rw [List.nil_append]
    show restScan ('/' :: (['s', 't', 'a', 't', 'u', 's', '/'] ++ d :: post)) = some ds
    rw [restScan_cons, if_pos rfl]
    exact hds
  | cons c u ih =>
    intro d post hmem hd
    have hc : ¬ c = '/' := fun hh => hmem (by simp [hh])
    obtain ⟨ds, hds⟩ := ih d post (fun hm => hmem (List.mem_cons_of_mem _ hm)) hd
    exact ⟨ds, by rw [List.cons_append, restScan_cons, if_neg hc]; exact hds⟩

theorem afterHostScan_complete (u : List Char) (d : Char) (post : List Char)
    (hne : u ≠ []) (hmem : '/' ∉ u) (hd : d.isDigit = true) :
    ∃ ds, afterHostScan (u ++ (statusLit ++ d :: post)) = some ds := by
  cases u with
  | nil => exact absurd rfl hne
  | cons c u =>
    have hc : ¬ c = '/' := fun hh => hmem (by simp [hh])
    obtain ⟨ds, hds⟩ := restScan_complete u d post (fun hm => hmem (List.mem_cons_of_mem _ hm)) hd
    exact ⟨ds, by rw [List.cons_append, afterHostScan_cons, if_neg hc]; exact hds⟩

theorem matchHere_complete (host u : List Char) (d : Char) (post : List Char)
    (hh : host = twitterHost ∨ host = xHost)
    (hne : u ≠ []) (hmem : '/' ∉ u) (hd : d.isDigit = true) :
    ∃ ds, matchHere (host ++ (u ++ (statusLit ++ d :: post))) = some ds := by
  obtain ⟨ds, hds⟩ := afterHostScan_complete u d post hne hmem hd
  rcases hh with hh | hh
  · subst hh
    refine ⟨ds, ?_⟩
    unfold matchHere
    rw [stripLead_self]
    exact hds
  · subst hh
    refine ⟨ds, ?_⟩
    have htw : stripLead twitterHost (xHost ++ (u ++ (statusLit ++ d :: post))) = none := rfl
    unfold matchHere
    rw [htw, stripLead_self]
    exact hds

theorem scanFrom_complete : ∀ pre l, (∃ ds, matchHere l = some ds) →
    ∃ ds, scanFrom (pre ++ l) = some ds := by
  intro pre
  induction pre with
  | nil =>
    intro l hm
    obtain ⟨ds, hds⟩ := hm
    cases l with
    | nil => simp [matchHere, stripLead, twitterHost, xHost] at hds
    | cons c rest =>
      refine ⟨ds, ?_⟩
      rw [List.nil_append, scanFrom_cons, hds]
  | cons c pre ih =>
    intro l hm
    obtain ⟨ds, hds⟩ := ih l hm
    rw [List.cons_append]
    cases hmh : matchHere (c :: (pre ++ l)) with
    | some ds' => exact ⟨ds', by rw [scanFrom_cons, hmh]⟩
    | none => exact ⟨ds, by rw [scanFrom_cons, hmh]; exact hds⟩

theorem extract_some_of_contains (url : String) (h : ContainsStatusLink url) :
    extract_tweet_id url ≠ none := by
  obtain ⟨pre, host, u, d, post, hdec, hh, hne, hu, hd⟩ := h
  obtain ⟨ds, hds⟩ := matchHere_complete host u d post hh hne hu hd
  obtain ⟨ds', hds'⟩ := scanFrom_complete pre _ ⟨ds, hds⟩
  unfold extract_tweet_id
  rw [hdec, hds']
  simp


/-! ### Delivery-loop invariants -/

theorem postLoop_honors (env : Nat → AttemptOutcome) :
    ∀ (fuel attempt : Nat) (rc : Bool) (lm : String) (s : ClientState),
    s.rate_limited_until ≤ s.time →
    ∀ p ∈ (postLoop env fuel attempt rc lm s).2.2, p.2 ≤ p.1 := by
  intro fuel
  induction fuel with
  | zero =>
    intro attempt rc lm s hs p hp
    simp [postLoop] at hp
  | succ fuel ih =>
    intro attempt rc lm s hs p hp
    cases henv : env attempt with
    | ok =>
      simp only [postLoop, henv, List.mem_singleton] at hp
      subst hp
      exact hs
    | emptyResponse =>
      simp only [postLoop, henv, List.mem_cons] at hp
      rcases hp with hp | hp
      · subst hp; exact hs
      · exact ih (attempt + 1) rc _ s hs p hp
    | err e =>
      simp only [postLoop, henv] at hp
      by_cases hcat : (classify_error e).category = ErrCategory.rate_limit
      · rw [if_pos hcat] at hp
        by_cases hf : fuel = 0
        · rw [if_pos hf] at hp
          simp only [List.mem_singleton] at hp
          subst hp
          exact hs
        · rw [if_neg hf] at hp
          simp only [List.mem_cons] at hp
          rcases hp with hp | hp
          · subst hp; exact hs
          · exact ih (attempt + 1) _ _ _ (le_refl _) p hp
      · rw [if_neg hcat] at hp
        by_cases hbr : (!(classify_error e).retryable || decide (fuel = 0)) = true
        · rw [if_pos hbr] at hp
          simp only [List.mem_singleton] at hp
          subst hp
          exact hs
        · rw [if_neg hbr] at hp
          simp only [List.mem_cons] at hp
          rcases hp with hp | hp
          · subst hp; exact hs
          · refine ih (attempt + 1) _ _ _ ?_ p hp
            exact le_trans hs (Nat.le_add_right _ _)

theorem post_reply_honors (env : Nat → AttemptOutcome) (s : ClientState) :
    ∀ p ∈ (post_reply env s).2.2, p.2 ≤ p.1 := by
  unfold post_reply
  by_cases h : is_rate_limited s = true
  · rw [if_pos h]
    apply postLoop_honors
    simp only [is_rate_limited, decide_eq_true_eq] at h
    show s.rate_limited_until ≤ s.time + get_rate_limit_remaining s
    unfold get_rate_limit_remaining
    omega
  · rw [if_neg h]
    apply postLoop_honors
    simp only [is_rate_limited, decide_eq_true_eq, Nat.not_lt] at h
    exact h

theorem post_reply_seq_honors :
    ∀ (envs : List (Nat → AttemptOutcome)) (s : ClientState),
    ∀ p ∈ (post_reply_seq envs s).2, p.2 ≤ p.1 := by
  intro envs
  induction envs with
  | nil => intro s p hp; simp [post_reply_seq] at hp
  | cons env rest ih =>
    intro s p hp
    simp only [post_reply_seq, List.mem_append] at hp
    rcases hp with hp | hp
    · exact post_reply_honors env s p hp
    · exact ih _ p hp

theorem postLoop_success_clears (env : Nat → AttemptOutcome) :
    ∀ (fuel attempt : Nat) (rc : Bool) (lm : String) (s : ClientState),
    (postLoop env fuel attempt rc lm s).1.1 = true →
    (postLoop env fuel attempt rc lm s).2.1.rate_limited_until = 0 := by
  intro fuel
  induction fuel with
  | zero =>
    intro attempt rc lm s h
    simp [postLoop] at h
  | succ fuel ih =>
    intro attempt rc lm s h
    cases henv : env attempt with
    | ok => simp only [postLoop, henv]
    | emptyResponse =>
      simp only [postLoop, henv] at h ⊢
      exact ih (attempt + 1) rc _ s h
    | err e =>
      simp only [postLoop, henv] at h ⊢
      by_cases hcat : (classify_error e).category = ErrCategory.rate_limit
      · rw [if_pos hcat] at h ⊢
        by_cases hf : fuel = 0
        · rw [if_pos hf] at h
          simp at h
        · rw [if_neg hf] at h ⊢
          exact ih (attempt + 1) _ _ _ h
      · rw [if_neg hcat] at h ⊢
        by_cases hbr : (!(classify_error e).retryable || decide (fuel = 0)) = true
        · rw [if_pos hbr] at h
          simp at h
        · rw [if_neg hbr] at h ⊢
          exact ih (attempt + 1) _ _ _ h

theorem post_reply_success_clears (env : Nat → AttemptOutcome) (s : ClientState)
    (h : (post_reply env s).1.1 = true) :
    (post_reply env s).2.1.rate_limited_until = 0 := by
  unfold post_reply at h ⊢
  by_cases hrl : is_rate_limited s = true
  · rw [if_pos hrl] at h ⊢
    exact postLoop_success_clears env _ _ _ _ _ h
  · rw [if_neg hrl] at h ⊢
    exact postLoop_success_clears env _ _ _ _ _ h

theorem postLoop_len (env : Nat → AttemptOutcome) :
    ∀ (fuel attempt : Nat) (rc : Bool) (lm : String) (s : ClientState),
    (postLoop env fuel attempt rc lm s).2.2.length ≤ fuel := by
  intro fuel
  induction fuel with
  | zero => intro attempt rc lm s; simp [postLoop]
  | succ fuel ih =>
    intro attempt rc lm s
    cases henv : env attempt with
    | ok => simp [postLoop, henv]
    | emptyResponse =>
      simp only [postLoop, henv, List.length_cons]
      exact Nat.succ_le_succ (ih (attempt + 1) rc _ s)
    | err e =>
      simp only [postLoop, henv]
      by_cases hcat : (classify_error e).category = ErrCategory.rate_limit
      · rw [if_pos hcat]
        by_cases hf : fuel = 0
        · rw [if_pos hf]; simp
        · rw [if_neg hf]
          simp only [List.length_cons]
          exact Nat.succ_le_succ (ih (attempt + 1) _ _ _)
      · rw [if_neg hcat]
        by_cases hbr : (!(classify_error e).retryable || decide (fuel = 0)) = true
        · rw [if_pos hbr]; simp
        · rw [if_neg hbr]
          simp only [List.length_cons]
          exact Nat.succ_le_succ (ih (attempt + 1) _ _ _)

theorem postLoop_fail_msg (env : Nat → AttemptOutcome) :
    ∀ (fuel attempt : Nat) (rc : Bool) (lm : String) (s : ClientState),
    (postLoop env fuel attempt rc lm s).1.1 = false →
    ((postLoop env fuel attempt rc lm s).2.2 = []
        ∧ (postLoop env fuel attempt rc lm s).1.2 = lm) ∨
    ((postLoop env fuel attempt rc lm s).2.2 ≠ []
        ∧ (postLoop env fuel attempt rc lm s).1.2
          = attemptErrMsg (env (attempt + (postLoop env fuel attempt rc lm s).2.2.length - 1))) := by
  intro fuel
  induction fuel with
  | zero =>
    intro attempt rc lm s _
    exact Or.inl ⟨rfl, rfl⟩
  | succ fuel ih =>
    intro attempt rc lm s h
    cases henv : env attempt with
    | ok => simp [postLoop, henv] at h
    | emptyResponse =>
      simp only [postLoop, henv] at h ⊢
      have hk : ∀ L : Nat, attempt + 1 + L - 1 = attempt + (L + 1) - 1 := by
        intro L; omega
      rcases ih (attempt + 1) rc ("API returned empty response") s h with ⟨htr, hmsg⟩ | ⟨htr, hmsg⟩
      · refine Or.inr ⟨by simp, ?_⟩
        simp [htr, hmsg, henv, attemptErrMsg]
      · refine Or.inr ⟨by simp, ?_⟩
        simp [hmsg, hk]
    | err e =>
      simp only [postLoop, henv] at h ⊢
      by_cases hcat : (classify_error e).category = ErrCategory.rate_limit
      · rw [if_pos hcat] at h ⊢
        by_cases hf : fuel = 0
        · rw [if_pos hf] at h ⊢
          refine Or.inr ⟨by simp, ?_⟩
          simp [henv, attemptErrMsg]
        · rw [if_neg hf] at h ⊢
          have hk : ∀ L : Nat, attempt + 1 + L - 1 = attempt + (L + 1) - 1 := by
            intro L; omega
          rcases ih (attempt + 1) _ _ _ h with ⟨htr, hmsg⟩ | ⟨htr, hmsg⟩
          · refine Or.inr ⟨by simp, ?_⟩
            simp [htr, hmsg, henv, attemptErrMsg]
          · refine Or.inr ⟨by simp, ?_⟩
            simp [hmsg, hk]
      · rw [if_neg hcat] at h ⊢
        by_cases hbr : (!(classify_error e).retryable || decide (fuel = 0)) = true
        · rw [if_pos hbr] at h ⊢
          refine Or.inr ⟨by simp, ?_⟩
          simp [henv, attemptErrMsg]
        · rw [if_neg hbr] at h ⊢
          have hk : ∀ L : Nat, attempt + 1 + L - 1 = attempt + (L + 1) - 1 := by
            intro L; omega
          rcases ih (attempt + 1) _ _ _ h with ⟨htr, hmsg⟩ | ⟨htr, hmsg⟩
          · refine Or.inr ⟨by simp, ?_⟩
            simp [htr, hmsg, henv, attemptErrMsg]
          · refine Or.inr ⟨by simp, ?_⟩
            simp [hmsg, hk]

theorem postLoop_allfail (env : Nat → AttemptOutcome) (henvs : ∀ k, env k ≠ .ok) :
    ∀ (fuel attempt : Nat) (rc : Bool) (lm : String) (s : ClientState),
    (postLoop env fuel attempt rc lm s).1.1 = false := by
  intro fuel
  induction fuel with
  | zero => intro attempt rc lm s; rfl
  | succ fuel ih =>
    intro attempt rc lm s
    cases he : env attempt with
    | ok => exact absurd he (henvs attempt)
    | emptyResponse =>
      simp only [postLoop, he]
      exact ih (attempt + 1) rc _ s
    | err e =>
      simp only [postLoop, he]
      by_cases hcat : (classify_error e).category = ErrCategory.rate_limit
      · rw [if_pos hcat]
        by_cases hf : fuel = 0
        · rw [if_pos hf]
        · rw [if_neg hf]
          exact ih (attempt + 1) _ _ _
      · rw [if_neg hcat]
        by_cases hbr : (!(classify_error e).retryable || decide (fuel = 0)) = true
        · rw [if_pos hbr]
        · rw [if_neg hbr]
          exact ih (attempt + 1) _ _ _

theorem getLoop_until_frame (env : Nat → FetchOutcome) :
    ∀ (fuel attempt : Nat) (s : ClientState),
    (getLoop env fuel attempt s).2.1.rate_limited_until = s.rate_limited_until := by
  intro fuel
  induction fuel with
  | zero => intro attempt s; rfl
  | succ fuel ih =>
    intro attempt s
    cases henv : env attempt with
    | data t => simp [getLoop, henv]
    | noData => simp [getLoop, henv]
    | err e =>
      simp only [getLoop, henv]
      by_cases hbr : (!(classify_error e).retryable || decide (fuel = 0)) = true
      · rw [if_pos hbr]
      · rw [if_neg hbr]
        exact ih (attempt + 1) _

/-! ### Session-loop invariants -/

theorem sessionLoop_counts (stopAt : Nat → Bool) (env : Nat → Except String ItemEnv)
    (A : Nat) :
    ∀ (items : List WorkItem) (i : Nat) (st : LoopState) (out : SessionOut),
    sessionLoop stopAt env A items i st = .ok out →
    st.total_replies + st.skipped + st.failed = st.visited →
    (out.report.total_replies + out.report.skipped + out.report.failed = out.visited ∧
     out.visited ≤ st.visited + items.length) := by
  intro items
  induction items with
  | nil =>
    intro i st out h hinv
    simp only [sessionLoop] at h
    cases h
    exact ⟨hinv, Nat.le_add_right _ _⟩
  | cons item rest ih =>
    intro i st out h hinv
    by_cases hstop : stopAt i = true
    · simp only [sessionLoop] at h
      rw [if_pos hstop] at h
      cases h
      exact ⟨hinv, Nat.le_add_right _ _⟩
    · by_cases htgt : A ≤ st.processed
      · simp only [sessionLoop] at h
        rw [if_neg hstop, if_pos htgt] at h
        cases h
        exact ⟨hinv, Nat.le_add_right _ _⟩
      · cases henv : env i with
        | error e =>
          simp only [sessionLoop, henv] at h
          rw [if_neg hstop, if_neg htgt] at h
          cases h
        | ok ienv =>
          cases hr : (process_single_post item.url item.content ienv).1 with
          | success reply =>
            simp only [sessionLoop, henv, hr] at h
            rw [if_neg hstop, if_neg htgt] at h
            have hres := ih (i + 1) _ out h
              (by show st.total_replies + 1 + st.skipped + st.failed = st.visited + 1; omega)
            refine ⟨hres.1, ?_⟩
            have h2 : out.visited ≤ st.visited + 1 + rest.length := hres.2
            simp only [List.length_cons]
            omega
          | skipped reason =>
            simp only [sessionLoop, henv, hr] at h
            rw [if_neg hstop, if_neg htgt] at h
            have hres := ih (i + 1) _ out h
              (by show st.total_replies + (st.skipped + 1) + st.failed = st.visited + 1; omega)
            refine ⟨hres.1, ?_⟩
            have h2 : out.visited ≤ st.visited + 1 + rest.length := hres.2
            simp only [List.length_cons]
            omega
          | failed err =>
            simp only [sessionLoop, henv, hr] at h
            rw [if_neg hstop, if_neg htgt] at h
            have hres := ih (i + 1) _ out h
              (by show st.total_replies + st.skipped + (st.failed + 1) = st.visited + 1; omega)
            refine ⟨hres.1, ?_⟩
            have h2 : out.visited ≤ st.visited + 1 + rest.length := hres.2
            simp only [List.length_cons]
            omega

theorem sessionLoop_posted_le (stopAt : Nat → Bool) (env : Nat → Except String ItemEnv)
    (A : Nat) :
    ∀ (items : List WorkItem) (i : Nat) (st : LoopState) (out : SessionOut),
    sessionLoop stopAt env A items i st = .ok out →
    st.total_replies = st.processed → st.processed ≤ A →
    out.report.total_replies ≤ A := by
  intro items
  induction items with
  | nil =>
    intro i st out h heq hle
    simp only [sessionLoop] at h
    cases h
    simpa [finishSession, heq] using hle
  | cons item rest ih =>
    intro i st out h heq hle
    by_cases hstop : stopAt i = true
    · simp only [sessionLoop] at h
      rw [if_pos hstop] at h
      cases h
      simpa [finishSession, heq] using hle
    · by_cases htgt : A ≤ st.processed
      · simp only [sessionLoop] at h
        rw [if_neg hstop, if_pos htgt] at h
        cases h
        simpa [finishSession, heq] using hle
      · cases henv : env i with
        | error e =>
          simp only [sessionLoop, henv] at h
          rw [if_neg hstop, if_neg htgt] at h
          cases h
        | ok ienv =>
          cases hr : (process_single_post item.url item.content ienv).1 with
          | success reply =>
            simp only [sessionLoop, henv, hr] at h
            rw [if_neg hstop, if_neg htgt] at h
            refine ih (i + 1) _ out h ?_ ?_
            · show st.total_replies + 1 = st.processed + 1
              omega
            · show st.processed + 1 ≤ A
              omega
          | skipped reason =>
            simp only [sessionLoop, henv, hr] at h
            rw [if_neg hstop, if_neg htgt] at h
            exact ih (i + 1) _ out h heq hle
          | failed err =>
            simp only [sessionLoop, henv, hr] at h
            rw [if_neg hstop, if_neg htgt] at h
            exact ih (i + 1) _ out h heq hle

theorem postLoop_ne_nil (env : Nat → AttemptOutcome) :
    ∀ (fuel attempt : Nat) (rc : Bool) (lm : String) (s : ClientState),
    0 < fuel → (postLoop env fuel attempt rc lm s).2.2 ≠ [] := by
  intro fuel
  cases fuel with
  | zero => intro attempt rc lm s hf; exact absurd hf (by omega)
  | succ fuel =>
    intro attempt rc lm s _
    cases henv : env attempt with
    | ok => simp [postLoop, henv]
    | emptyResponse => simp [postLoop, henv]
    | err e =>
      simp only [postLoop, henv]
      by_cases hcat : (classify_error e).category = ErrCategory.rate_limit
      · rw [if_pos hcat]
        by_cases hf : fuel = 0
        · rw [if_pos hf]; simp
        · rw [if_neg hf]; simp
      · rw [if_neg hcat]
        by_cases hbr : (!(classify_error e).retryable || decide (fuel = 0)) = true
        · rw [if_pos hbr]; simp
        · rw [if_neg hbr]; simp

/-! ## The claims -/

/-- C1: the claim says a delivery failure is recorded as a failed item with
its error detail and nothing persisted.  The code instead binds the whole
`(success, error_detail)` tuple returned by `post_reply` to `success`
(agent.py line 178); a 2-tuple is always truthy, so even a failed delivery
takes the success branch: the record is persisted, the quota incremented,
the cache appended and the item counted as posted.  This theorem evaluates
the embedded `_process_single_post` at a failing delivery and exhibits
exactly that. -/
theorem c1_failed_delivery_treated_as_success :
    process_single_post ("https://x.com/jane/status/7421")
      ("an insightful take on shipping fast")
      ⟨false, none, some ("Great point about iteration speed."),
        (false, "Forbidden (403): 403 Forbidden. Check API permissions.")⟩
    = (.success ("Great point about iteration speed."),
       [.storeLookup, .generate, .deliver, .persistRecord, .quotaIncrement,
        .cacheAppend]) := by
  decide

/-- C2: the claim says a stopped session reports terminal status
`"stopped"`.  In the code, `run_session` sets `report["status"] =
"completed"` unconditionally on loop exit (agent.py line 120), and the
`"stopped"` branch checked by `main.py` is unreachable.  Here the stop flag
is observed at iteration 1 of a two-item session: no new item begins
(`visited = 1`, no events for item 1) and the already-posted count is
retained (`total_replies = 1`), but the status is `"completed"`, not
`"stopped"`. -/
theorem c2_stop_requested_reports_completed :
    run_session 50 0
      [⟨"https://x.com/u/status/123", "a long enough text"⟩,
       ⟨"https://x.com/u/status/124", "more text here"⟩] 2
      (fun i => i != 0)
      (fun _ => .ok ⟨false, none, some ("nice reply"), (true, "")⟩)
    = .ok ⟨{ status := "completed", message := none, total_replies := 1,
             skipped := 0, failed := 0, errors := [],
             success_posts := ["https://x.com/u/status/123"] },
           [.storeLookup, .generate, .deliver, .persistRecord, .quotaIncrement,
            .cacheAppend], 1⟩ := rfl

/-- C3 counterexample: `run_session` has no `try/except`; a collaborator
exception during per-item processing propagates out of `run_session`
itself, refuting "run_session ... never raises past its boundary". -/
theorem c3_counterexample_run_session_raises :
    run_session 50 0 [⟨"https://x.com/u/status/1", "some long content"⟩] 1
      (fun _ => false) (fun _ => .error ("boom")) = .error ("boom") := rfl

/-- C3 as amended: `run_session` propagates unexpected exceptions to its
caller; it is the background task in `main.py` that catches any such
exception and converts it into a failed-session report
`{"status": "error", "message": str(e)}` instead of letting it escape the
session task. -/
theorem c3_background_boundary_converts_exception
    (daily_limit today_count : Nat) (session_data : List WorkItem)
    (target_count : Nat) (stopAt : Nat → Bool)
    (env : Nat → Except String ItemEnv) (e : String)
    (h : run_session daily_limit today_count session_data target_count stopAt env
          = .error e) :
    run_in_background daily_limit today_count session_data target_count stopAt env
      = { status := "error", message := some e, total_replies := 0, skipped := 0,
          failed := 0, errors := [], success_posts := [] } := by
  unfold run_in_background
  rw [h]

/-- C3 witness: a concrete raising run, converted at the boundary. -/
theorem c3_witness :
    run_in_background 50 0 [⟨"https://x.com/u/status/1", "some long content"⟩] 1
      (fun _ => false) (fun _ => .error ("boom"))
      = { status := "error", message := some ("boom"), total_replies := 0,
          skipped := 0, failed := 0, errors := [], success_posts := [] } :=
  c3_background_boundary_converts_exception 50 0
    [⟨"https://x.com/u/status/1", "some long content"⟩] 1
    (fun _ => false) (fun _ => .error ("boom")) ("boom") rfl

/-- C4: every `create_tweet` call in any sequence of `post_reply` calls
threading the shared client state happens at a time not earlier than the
cooldown in force at that moment (each trace entry is (time, cooldown) at
the call), and a successful delivery resets `rate_limited_until` to 0. -/
theorem c4_cooldown_gates_delivery (envs : List (Nat → AttemptOutcome))
    (env : Nat → AttemptOutcome) (s t : ClientState) :
    (∀ p ∈ (post_reply_seq envs s).2, p.2 ≤ p.1) ∧
    ((post_reply env t).1.1 = true →
      (post_reply env t).2.1.rate_limited_until = 0) :=
  ⟨post_reply_seq_honors envs s, post_reply_success_clears env t⟩

/-- C4 witness: a call entering with an active cooldown (time 3, cooldown
10) attempts only at time 10, and its success clears the cooldown. -/
theorem c4_witness :
    (10 : Nat) ≤ 10 ∧
    (post_reply (fun _ => AttemptOutcome.ok) ⟨3, 10⟩).2.1.rate_limited_until = 0 :=
  ⟨(c4_cooldown_gates_delivery [fun _ => AttemptOutcome.ok]
      (fun _ => AttemptOutcome.ok) ⟨3, 10⟩ ⟨3, 10⟩).1 (10, 10) (by decide),
   (c4_cooldown_gates_delivery [fun _ => AttemptOutcome.ok]
      (fun _ => AttemptOutcome.ok) ⟨3, 10⟩ ⟨3, 10⟩).2 rfl⟩

/-- C5: every report produced by `run_session` satisfies
`posted + skipped + failed = items_visited ≤ total items submitted`. -/
theorem c5_report_counts_invariant (daily_limit today_count target_count : Nat)
    (session_data : List WorkItem) (stopAt : Nat → Bool)
    (env : Nat → Except String ItemEnv) (out : SessionOut)
    (h : run_session daily_limit today_count session_data target_count stopAt env
          = .ok out) :
    out.report.total_replies + out.report.skipped + out.report.failed = out.visited ∧
    out.visited ≤ session_data.length := by
  simp only [run_session] at h
  by_cases hq : (daily_limit : Int) - (today_count : Int) ≤ 0
  · rw [if_pos hq] at h
    cases h
    exact ⟨rfl, Nat.zero_le _⟩
  · rw [if_neg hq] at h
    have hres := sessionLoop_counts stopAt env _ session_data 0 _ out h rfl
    simpa using hres

/-- C5 witness: a one-item session with one success has
`1 + 0 + 0 = 1` visited item out of 1 submitted. -/
theorem c5_witness :
    (1 : Nat) + 0 + 0 = 1 ∧ (1 : Nat) ≤ 1 :=
  c5_report_counts_invariant 50 0 1
    [⟨"https://x.com/u/status/1", "long enough text"⟩]
    (fun _ => false) (fun _ => .ok ⟨false, none, some ("nice"), (true, "")⟩)
    ⟨{ status := "completed", message := none, total_replies := 1, skipped := 0,
       failed := 0, errors := [], success_posts := ["https://x.com/u/status/1"] },
     [.storeLookup, .generate, .deliver, .persistRecord, .quotaIncrement,
      .cacheAppend], 1⟩ rfl

/-- C6: when the session starts with positive quota remaining, the posted
count never exceeds
`effective_target = min(requested_target, quota_remaining, len(queue))`,
the value `run_session` computes on entry. -/
theorem c6_posted_bounded_by_effective_target
    (daily_limit today_count target_count : Nat) (session_data : List WorkItem)
    (stopAt : Nat → Bool) (env : Nat → Except String ItemEnv) (out : SessionOut)
    (hq : today_count < daily_limit)
    (h : run_session daily_limit today_count session_data target_count stopAt env
          = .ok out) :
    out.report.total_replies
      ≤ min target_count (min (daily_limit - today_count) session_data.length) := by
  simp only [run_session] at h
  rw [if_neg (by omega : ¬((daily_limit : Int) - (today_count : Int) ≤ 0))] at h
  exact sessionLoop_posted_le stopAt env _ session_data 0 _ out h rfl (Nat.zero_le _)

/-- C6 witness: quota remaining 1, target 5, one item: posted 1 ≤
min 5 (min 1 1). -/
theorem c6_witness :
    (1 : Nat) ≤ min 5 (min (50 - 49) 1) :=
  c6_posted_bounded_by_effective_target 50 49 5
    [⟨"https://x.com/u/status/1", "long enough text"⟩]
    (fun _ => false) (fun _ => .ok ⟨false, none, some ("nice"), (true, "")⟩)
    ⟨{ status := "completed", message := none, total_replies := 1, skipped := 0,
       failed := 0, errors := [], success_posts := ["https://x.com/u/status/1"] },
     [.storeLookup, .generate, .deliver, .persistRecord, .quotaIncrement,
      .cacheAppend], 1⟩ (by omega) rfl

/-- C7: a session started with `quota.remaining() ≤ 0` returns immediately
with zero posted/skipped/failed, a status/message reflecting quota
exhaustion, an empty collaborator-call trace and zero items visited. -/
theorem c7_quota_exhausted_touches_nothing
    (daily_limit today_count target_count : Nat) (session_data : List WorkItem)
    (stopAt : Nat → Bool) (env : Nat → Except String ItemEnv)
    (h : daily_limit ≤ today_count) :
    run_session daily_limit today_count session_data target_count stopAt env
      = .ok ⟨{ status := "error",
               message := some ("Daily limit (" ++ toString daily_limit
                 ++ ") already reached!"),
               total_replies := 0, skipped := 0, failed := 0, errors := [],
               success_posts := [] }, [], 0⟩ := by
  simp only [run_session]
  rw [if_pos (by omega : ((daily_limit : Int) - (today_count : Int) ≤ 0))]

/-- C7 witness: today's count equal to the limit yields the empty
quota-exhaustion report and no events. -/
theorem c7_witness :
    run_session 50 50 [⟨"https://x.com/u/status/1", "text"⟩] 3 (fun _ => false)
      (fun _ => .ok ⟨false, none, none, (true, "")⟩)
      = .ok ⟨{ status := "error",
               message := some ("Daily limit (50) already reached!"),
               total_replies := 0, skipped := 0, failed := 0, errors := [],
               success_posts := [] }, [], 0⟩ :=
  c7_quota_exhausted_touches_nothing 50 50 3
    [⟨"https://x.com/u/status/1", "text"⟩] (fun _ => false)
    (fun _ => .ok ⟨false, none, none, (true, "")⟩) (le_refl 50)

/-- C8: `post_reply` makes at most `MAX_RETRIES = 3` delivery attempts; a
failure result carries the error detail of the last attempt made (whether
attempts were exhausted or the classification was terminal); and if no
attempt succeeds — rate-limited attempts included — the result is a
failure. -/
theorem c8_bounded_retries_with_last_error (env : Nat → AttemptOutcome)
    (s : ClientState) :
    (post_reply env s).2.2.length ≤ MAX_RETRIES ∧
    ((post_reply env s).1.1 = false →
      (post_reply env s).1.2
        = attemptErrMsg (env ((post_reply env s).2.2.length - 1))) ∧
    ((∀ k, env k ≠ .ok) → (post_reply env s).1.1 = false) := by
  unfold post_reply
  refine ⟨postLoop_len env MAX_RETRIES 0 false ("") _, ?_, ?_⟩
  · intro hfail
    rcases postLoop_fail_msg env MAX_RETRIES 0 false ("") _ hfail with ⟨htr, _⟩ | hmsg
    · exact absurd htr (postLoop_ne_nil env MAX_RETRIES 0 false ("") _ (by decide))
    · simpa using hmsg.2
  · intro hok
    exact postLoop_allfail env hok MAX_RETRIES 0 false ("") _

/-- C8 witness: a terminal 403 stops after one attempt with its detail. -/
theorem c8_witness :
    (post_reply (fun _ => AttemptOutcome.err ("403 suspended")) ⟨0, 0⟩).1.2
      = attemptErrMsg ((fun _ => AttemptOutcome.err ("403 suspended"))
          ((post_reply (fun _ => AttemptOutcome.err ("403 suspended"))
            ⟨0, 0⟩).2.2.length - 1))
    ∧ (post_reply (fun _ => AttemptOutcome.err ("403 suspended")) ⟨0, 0⟩).1.1
        = false :=
  ⟨(c8_bounded_retries_with_last_error
      (fun _ => AttemptOutcome.err ("403 suspended")) ⟨0, 0⟩).2.1 rfl,
   (c8_bounded_retries_with_last_error
      (fun _ => AttemptOutcome.err ("403 suspended")) ⟨0, 0⟩).2.2
      (fun _ h => nomatch h)⟩

/-- C9 counterexample: with the cooldown set to 100 and the clock at 0,
`get_tweet` still performs a fetch attempt at time 0 — the fetch path never
consults the shared cooldown, refuting "no fetch attempt occurs while the
cooldown is active". -/
theorem c9_counterexample_fetch_ignores_cooldown :
    (get_tweet (fun _ => FetchOutcome.data (some ("hello"))) ⟨0, 100⟩).2.2
      = [(0, 100)] ∧ (0 : Nat) < 100 :=
  ⟨rfl, by decide⟩

/-- C9 as amended: `get_tweet` does not consult the shared cooldown — fetch
attempts may occur while it is active — but it leaves `rate_limited_until`
unchanged regardless of success, failure or error classification. -/
theorem c9_fetch_leaves_cooldown_unchanged (env : Nat → FetchOutcome)
    (s : ClientState) :
    (get_tweet env s).2.1.rate_limited_until = s.rate_limited_until :=
  getLoop_until_frame env MAX_RETRIES 0 s

/-- C10: an item whose URL does not contain a `twitter.com`/`x.com` path
with `/status/` followed by digits (and which the store has not already
recorded) has tweet-id extraction return `None`, and the orchestrator
counts it failed with error detail "Invalid URL" after only the store
lookup — before any fetch, generation or delivery. -/
theorem c10_invalid_url_fails_before_fetch (url provided_text : String)
    (env : ItemEnv) (h1 : ¬ ContainsStatusLink url)
    (h2 : env.alreadyProcessed = false) :
    extract_tweet_id url = none ∧
    process_single_post url provided_text env
      = (.failed ("Invalid URL"), [.storeLookup]) := by
  have hn : extract_tweet_id url = none := by
    cases hx : extract_tweet_id url with
    | none => rfl
    | some ds => exact absurd (extract_some_contains url (by rw [hx]; simp)) h1
  refine ⟨hn, ?_⟩
  simp [process_single_post, h2, hn]

/-- C10 witness: a non-Twitter URL is rejected with "Invalid URL" after the
store lookup alone. -/
theorem c10_witness :
    extract_tweet_id ("https://example.com/a/status/123") = none ∧
    process_single_post ("https://example.com/a/status/123") ("ctx")
      ⟨false, none, some ("r"), (true, "")⟩
      = (.failed ("Invalid URL"), [.storeLookup]) :=
  c10_invalid_url_fails_before_fetch ("https://example.com/a/status/123") ("ctx")
    ⟨false, none, some ("r"), (true, "")⟩
    (fun hc => (extract_some_of_contains _ hc) (by decide)) rfl
